import Mathlib

/-!
Verification of the TOM v3.0 realtime voice-agent core against its design
specification.  The Python sources under `apps/` are shallowly embedded as
executable Lean definitions: dictionaries become association structures,
floats become rationals, exceptions become `Except`/`Option`, and the file
system and random number generator become explicit parameters.  Each claim
of the specification is then stated and settled as a theorem about these
definitions.
-/

namespace TOM

/-! ## Python value model

`calc_reward` in `apps/rl/reward_calc.py` receives an untyped `dict` of
signals.  We model the dynamically typed values that can occur in that
dictionary, Python truthiness, numeric coercion (booleans are numeric in
Python), and the `TypeError` raised when arithmetic or comparison meets a
non-numeric value. -/

inductive PyVal where
  | none : PyVal
  | bool (b : Bool) : PyVal
  | num (q : ℚ) : PyVal
  | str (s : String) : PyVal
deriving DecidableEq, Repr

/-- Python truthiness of a value (`if x:`). -/
def PyVal.truthy : PyVal → Bool
  | .none => false
  | .bool b => b
  | .num q => q ≠ 0
  | .str s => s ≠ ""

/-- Numeric coercion as used by Python arithmetic and numeric comparison:
`bool` is an `int` subtype; `None` and `str` raise `TypeError`. -/
def PyVal.toNum : PyVal → Except Unit ℚ
  | .none => .error ()
  | .bool b => .ok (if b then 1 else 0)
  | .num q => .ok q
  | .str _ => .error ()

/-! ## Reward calculator (`apps/rl/reward_calc.py`)

`RewardConfig` mirrors the dataclass defaults.  The signals dictionary is
modelled by one field per key read by `calc_reward`; an absent key is the
same as the default that `signals.get(key, default)` supplies, so each
field simply holds the value `get` returns. -/

structure RewardConfig where
  resolution_weight : ℚ := 6/10
  rating_weight : ℚ := 2/10
  barge_in_weight : ℚ := -1/10
  repeats_weight : ℚ := -1/10
  handover_weight : ℚ := -1/10
  optimal_duration_sec : ℚ := 180
  duration_bonus_max : ℚ := 2/10
  min_reward : ℚ := -1
  max_reward : ℚ := 1
deriving Repr

def defaultRewardConfig : RewardConfig := {}

/-- The value of `signals.get(k, default)` for each key `calc_reward` reads.
A key absent from the Python dict is represented by the documented default
(`.bool false`, `.none` or `.num 0`), which is exactly what `get` yields. -/
structure Signals where
  resolution : PyVal := .bool false
  user_rating : PyVal := .none
  barge_in_count : PyVal := .num 0
  repeats : PyVal := .num 0
  handover : PyVal := .bool false
  duration_sec : PyVal := .num 0
deriving DecidableEq, Repr

/-- `RewardCalculator._calc_duration_bonus`: zero for non-positive duration,
otherwise linear falloff from the optimum, clamped to the bonus range.
A non-numeric duration raises `TypeError` at the `duration_sec <= 0`
comparison, which we surface as an error. -/
def calcDurationBonus (cfg : RewardConfig) (v : PyVal) : Except Unit ℚ := do
  let d ← v.toNum
  if d ≤ 0 then
    return 0
  else
    let deviation := |d - cfg.optimal_duration_sec|
    let bonus := cfg.duration_bonus_max * (1 - deviation / cfg.optimal_duration_sec)
    return max (-cfg.duration_bonus_max) (min cfg.duration_bonus_max bonus)

/-- Body of the `try:` block of `RewardCalculator.calc_reward` up to (but not
including) the final clamp: the weighted sum of the six signal components.
Any `TypeError` from dynamic typing propagates as an error. -/
def calcRewardRaw (cfg : RewardConfig) (s : Signals) : Except Unit ℚ := do
  let r1 : ℚ := if s.resolution.truthy then cfg.resolution_weight else 0
  let r2 : ℚ ←
    if s.user_rating = PyVal.none then
      pure 0
    else do
      let u ← s.user_rating.toNum
      pure (cfg.rating_weight * ((u - 3) / 2))
  let b ← s.barge_in_count.toNum
  let r3 : ℚ := cfg.barge_in_weight * (min b 3 / 3)
  let p ← s.repeats.toNum
  let r4 : ℚ := cfg.repeats_weight * (min p 3 / 3)
  let r5 : ℚ := if s.handover.truthy then cfg.handover_weight else 0
  let r6 ← calcDurationBonus cfg s.duration_sec
  return r1 + r2 + r3 + r4 + r5 + r6

/-- `RewardCalculator.calc_reward` without the surrounding `except`: the raw
sum followed by the clamp `max(min_reward, min(max_reward, reward))`. -/
def calcRewardChecked (cfg : RewardConfig) (s : Signals) : Except Unit ℚ :=
  (calcRewardRaw cfg s).map (fun r => max cfg.min_reward (min cfg.max_reward r))

/-- `RewardCalculator.calc_reward` including its `except` clause, which
returns the neutral reward `0.0` on any exception. -/
def calcReward (cfg : RewardConfig) (s : Signals) : ℚ :=
  match calcRewardChecked cfg s with
  | .ok r => r
  | .error _ => 0

end TOM

namespace TOM

/-- C4: for every signal set — any combination of resolution, user_rating,
barge_in_count, repeats, handover, duration_sec, of any dynamic type — the
reward computed by `calc_reward` with the default configuration lies in the
closed interval [−1, +1].  The embedding `calcReward` is a mathematical
function of the signals alone, which is the purity half of the claim: the
same input always yields the same output and no state is mutated. -/
theorem calc_reward_bounded_and_pure (s : Signals) :
    -1 ≤ calcReward defaultRewardConfig s ∧ calcReward defaultRewardConfig s ≤ 1 := by
  unfold calcReward calcRewardChecked
  cases h : calcRewardRaw defaultRewardConfig s with
  | error e => simp [Except.map]
  | ok r =>
      simp only [Except.map]
      constructor
      · exact le_max_left _ _
      · have h1 : min (defaultRewardConfig.max_reward) r ≤ 1 := by
          simp [defaultRewardConfig, RewardConfig.max_reward]
        have h2 : (defaultRewardConfig.min_reward : ℚ) ≤ 1 := by
          simp [defaultRewardConfig]
        exact max_le h2 h1

/-- C10: `calc_reward` is total over arbitrary signal dictionaries.  For every
input the embedded computation either succeeds — in which case `calc_reward`
returns exactly that value — or the dynamic typing raises internally, in which
case the `except` clause returns the neutral reward `0.0`.  In particular a
non-numeric `user_rating` such as the string `"five"` makes the computation
fail and the result is `0`. -/
theorem calc_reward_total_neutral_fallback :
    (∀ s : Signals,
        (∃ r, calcRewardChecked defaultRewardConfig s = .ok r ∧
          calcReward defaultRewardConfig s = r) ∨
        (calcRewardChecked defaultRewardConfig s = .error () ∧
          calcReward defaultRewardConfig s = 0)) ∧
    calcRewardChecked defaultRewardConfig { user_rating := PyVal.str "five" } = .error () ∧
    calcReward defaultRewardConfig { user_rating := PyVal.str "five" } = 0 := by
  refine ⟨fun s => ?_, by rfl, by rfl⟩
  cases h : calcRewardChecked defaultRewardConfig s with
  | ok r => exact Or.inl ⟨r, rfl, by simp [calcReward, h]⟩
  | error e => exact Or.inr ⟨rfl, by simp [calcReward, h]⟩

/-! ## Policy Bandit (`apps/rl/policy_bandit.py`)

The Python dictionaries `alpha`, `beta`, `total_rewards`, `total_pulls` are
modelled as total functions together with the shared, insertion-ordered key
list `alphaKeys` (the four dicts always receive keys together, in
`add_variant` and `reset_variant`).  The separate `self.variants` registry is
the `variants` list.  The code only ever indexes the state dicts at
registered keys, so the default value of the total functions is never
observable. -/

structure BanditState where
  alphaKeys : List String := []
  alpha : String → ℚ := fun _ => 0
  beta : String → ℚ := fun _ => 0
  total_rewards : String → ℚ := fun _ => 0
  total_pulls : String → ℕ := fun _ => 0
  last_updated : ℚ := 0

structure PolicyBandit where
  variants : List String := []
  state : BanditState := {}

/-- Insert a key into an insertion-ordered key list (Python dict assignment). -/
def listInsert (l : List String) (v : String) : List String :=
  if v ∈ l then l else l ++ [v]

/-- `PolicyBandit.add_variant`: register the variant and initialise the
uninformative Beta prior `α = β = 1` if the variant is unseen. -/
def addVariant (b : PolicyBandit) (v : String) : PolicyBandit :=
  let variants' := listInsert b.variants v
  if v ∈ b.state.alphaKeys then { b with variants := variants' }
  else
    { variants := variants'
      state :=
        { b.state with
          alphaKeys := b.state.alphaKeys ++ [v]
          alpha := fun x => if x = v then 1 else b.state.alpha x
          beta := fun x => if x = v then 1 else b.state.beta x
          total_rewards := fun x => if x = v then 0 else b.state.total_rewards x
          total_pulls := fun x => if x = v then 0 else b.state.total_pulls x } }

/-- `PolicyBandit.update`: unknown variant is a warned no-op; otherwise the
reward is rescaled to `[0,1]` and the Beta posterior, totals, pull count and
timestamp are updated.  (`_save_state` persistence is modelled in the Deploy
Guard section.) -/
def banditUpdate (b : PolicyBandit) (v : String) (reward now : ℚ) : PolicyBandit :=
  if v ∈ b.variants then
    let normalized := (reward + 1) / 2
    { b with
      state :=
        { b.state with
          alpha := fun x => if x = v then b.state.alpha v + normalized else b.state.alpha x
          beta := fun x => if x = v then b.state.beta v + (1 - normalized) else b.state.beta x
          total_rewards := fun x =>
            if x = v then b.state.total_rewards v + reward else b.state.total_rewards x
          total_pulls := fun x =>
            if x = v then b.state.total_pulls v + 1 else b.state.total_pulls x
          last_updated := now } }
  else b

/-- Iterate `banditUpdate` over a list of (reward, timestamp) pairs:
the trace of N successive `update(v, r)` calls. -/
def banditRun (b : PolicyBandit) (v : String) (rs : List (ℚ × ℚ)) : PolicyBandit :=
  rs.foldl (fun b p => banditUpdate b v p.1 p.2) b

lemma banditUpdate_variants (b : PolicyBandit) (w : String) (r now : ℚ) :
    (banditUpdate b w r now).variants = b.variants := by
  unfold banditUpdate
  split <;> rfl

lemma banditRun_invariant (v : String) :
    ∀ (rs : List (ℚ × ℚ)) (b : PolicyBandit), v ∈ b.variants →
      (∀ p ∈ rs, -1 ≤ p.1 ∧ p.1 ≤ 1) →
      (banditRun b v rs).state.alpha v + (banditRun b v rs).state.beta v
          = b.state.alpha v + b.state.beta v + rs.length ∧
      b.state.alpha v ≤ (banditRun b v rs).state.alpha v ∧
      b.state.beta v ≤ (banditRun b v rs).state.beta v := by
  intro rs
  induction rs with
  | nil =>
      intro b _ _
      simp [banditRun]
  | cons p rs ih =>
      intro b hv hb
      have hrun : banditRun b v (p :: rs) = banditRun (banditUpdate b v p.1 p.2) v rs := rfl
      have hv' : v ∈ (banditUpdate b v p.1 p.2).variants := by
        rw [banditUpdate_variants]; exact hv
      have hα : (banditUpdate b v p.1 p.2).state.alpha v
          = b.state.alpha v + (p.1 + 1) / 2 := by
        simp [banditUpdate, hv]
      have hβ : (banditUpdate b v p.1 p.2).state.beta v
          = b.state.beta v + (1 - (p.1 + 1) / 2) := by
        simp [banditUpdate, hv]
      have hstep := ih (banditUpdate b v p.1 p.2) hv' (fun q hq => hb q (List.mem_cons_of_mem p hq))
      have hp := hb p (List.mem_cons_self p rs)
      have hr1 : (0 : ℚ) ≤ (p.1 + 1) / 2 := by linarith [hp.1]
      have hr2 : (0 : ℚ) ≤ 1 - (p.1 + 1) / 2 := by linarith [hp.2]
      rw [hrun]
      refine ⟨?_, ?_, ?_⟩
      · rw [hstep.1, hα, hβ]
        push_cast [List.length_cons]
        ring
      · calc b.state.alpha v ≤ (banditUpdate b v p.1 p.2).state.alpha v := by
              rw [hα]; linarith
          _ ≤ (banditRun (banditUpdate b v p.1 p.2) v rs).state.alpha v := hstep.2.1
      · calc b.state.beta v ≤ (banditUpdate b v p.1 p.2).state.beta v := by
              rw [hβ]; linarith
          _ ≤ (banditRun (banditUpdate b v p.1 p.2) v rs).state.beta v := hstep.2.2

end TOM

namespace TOM

/-- C5: for a registered variant `v`, `update(v, r)` adds the rescaled reward
`(r+1)/2` to `α_v`, the complement `1 − (r+1)/2` to `β_v`, and increments the
pull count; and starting from the fresh prior `α_v = β_v = 1` created by
`add_variant`, after N updates with rewards in [−1, +1] the posterior
satisfies `α_v + β_v = N + 2` with `α_v ≥ 1` and `β_v ≥ 1`. -/
theorem bandit_update_posterior :
    (∀ (b : PolicyBandit) (v : String) (r now : ℚ), v ∈ b.variants →
        (banditUpdate b v r now).state.alpha v = b.state.alpha v + (r + 1) / 2 ∧
        (banditUpdate b v r now).state.beta v = b.state.beta v + (1 - (r + 1) / 2) ∧
        (banditUpdate b v r now).state.total_pulls v = b.state.total_pulls v + 1) ∧
    (∀ (b0 : PolicyBandit) (v : String) (rs : List (ℚ × ℚ)),
        v ∉ b0.state.alphaKeys → (∀ p ∈ rs, -1 ≤ p.1 ∧ p.1 ≤ 1) →
        (banditRun (addVariant b0 v) v rs).state.alpha v
            + (banditRun (addVariant b0 v) v rs).state.beta v = rs.length + 2 ∧
        1 ≤ (banditRun (addVariant b0 v) v rs).state.alpha v ∧
        1 ≤ (banditRun (addVariant b0 v) v rs).state.beta v) := by
  constructor
  · intro b v r now hv
    refine ⟨by simp [banditUpdate, hv], by simp [banditUpdate, hv], by simp [banditUpdate, hv]⟩
  · intro b0 v rs hna hb
    have hmem : v ∈ (addVariant b0 v).variants := by
      unfold addVariant
      rw [if_neg hna]
      simp [listInsert]
      split <;> simp_all
    have hα1 : (addVariant b0 v).state.alpha v = 1 := by
      unfold addVariant
      rw [if_neg hna]
      simp
    have hβ1 : (addVariant b0 v).state.beta v = 1 := by
      unfold addVariant
      rw [if_neg hna]
      simp
    have h := banditRun_invariant v rs (addVariant b0 v) hmem hb
    refine ⟨?_, ?_, ?_⟩
    · rw [h.1, hα1, hβ1]; ring
    · calc (1 : ℚ) = (addVariant b0 v).state.alpha v := hα1.symm
        _ ≤ _ := h.2.1
    · calc (1 : ℚ) = (addVariant b0 v).state.beta v := hβ1.symm
        _ ≤ _ := h.2.2

/-- C5 witness: the posterior law at a concrete instance — register `v2a`
in a fresh bandit and push the bounded rewards 1 and 0. -/
theorem bandit_update_posterior_witness :
    ("v2a" ∉ (({} : PolicyBandit)).state.alphaKeys) ∧
    (banditRun (addVariant {} "v2a") "v2a" [((1 : ℚ), (5 : ℚ)), ((0 : ℚ), (6 : ℚ))]).state.alpha "v2a"
        + (banditRun (addVariant {} "v2a") "v2a"
            [((1 : ℚ), (5 : ℚ)), ((0 : ℚ), (6 : ℚ))]).state.beta "v2a"
        = ([((1 : ℚ), (5 : ℚ)), ((0 : ℚ), (6 : ℚ))].length : ℚ) + 2 :=
  ⟨by simp, (bandit_update_posterior.2 {} "v2a" [((1 : ℚ), (5 : ℚ)), ((0 : ℚ), (6 : ℚ))]
      (by simp) (by decide)).1⟩

/-! ## Deploy Guard (`apps/rl/deploy_guard.py`)

`DeployGuardFull` owns its own `PolicyBandit` and two variant sets
(`active_variants`, `blacklisted_variants`), modelled as lists with
set-like membership.  The statistics dictionary returned by the module
level `get_policy_stats()` is a parameter `stats`; a variant absent from it
yields the `stats.get(...)` defaults, i.e. all-zero statistics.

`select_variant_for_deployment` reads and assigns the attribute
`self.bandit.state.variants`.  `BanditState` declares no such field, so the
attribute exists only after some earlier assignment; we model it as
`banditStateVariants : Option (List String)`, where `Option.none` means the
attribute is absent and reading it raises `AttributeError`.  Randomness is
explicit: the two `_random.random()` draws are `u1 u2`, the two
`_random.choice` picks are index parameters `n1 n2`, and the Thompson
samples drawn by `PolicyBandit.select` are the function `samples`. -/

structure PolicyStats where
  pulls : ℕ := 0
  mean_reward : ℚ := 0
  confidence : ℚ := 0
deriving Repr

structure DeployConfig where
  base_variant : String := "v1a"
  traffic_split_new : ℚ := 1/10
  traffic_split_uncertain : ℚ := 2/10
  min_pulls_for_evaluation : ℕ := 20
  blacklist_threshold_reward : ℚ := -2/10
  uncertainty_threshold_confidence : ℚ := 6/10
  max_active_variants : ℕ := 5
deriving Repr

structure DeployGuardFull where
  config : DeployConfig := {}
  blacklisted_variants : List String := []
  active_variants : List String := []
  bandit : PolicyBandit := {}
  banditStateVariants : Option (List String) := Option.none

def listRemove (l : List String) (v : String) : List String :=
  l.filter (fun x => x ≠ v)

/-- `DeployGuardFull._is_new_variant`. -/
def isNewVariant (cfg : DeployConfig) (stats : String → PolicyStats) (v : String) : Bool :=
  (stats v).pulls < cfg.min_pulls_for_evaluation

/-- `DeployGuardFull._is_uncertain_variant`. -/
def isUncertainVariant (cfg : DeployConfig) (stats : String → PolicyStats) (v : String) : Bool :=
  cfg.min_pulls_for_evaluation ≤ (stats v).pulls &&
    (stats v).confidence < cfg.uncertainty_threshold_confidence

/-- `DeployGuardFull._update_blacklist`: iterate over a snapshot of the
active set; every non-base variant with enough pulls and a mean reward below
the threshold moves from active to blacklisted. -/
def updateBlacklist (g : DeployGuardFull) (stats : String → PolicyStats) : DeployGuardFull :=
  g.active_variants.foldl
    (fun g v =>
      if v = g.config.base_variant then g
      else if g.config.min_pulls_for_evaluation ≤ (stats v).pulls ∧
          (stats v).mean_reward < g.config.blacklist_threshold_reward then
        { g with
          blacklisted_variants := listInsert g.blacklisted_variants v
          active_variants := listRemove g.active_variants v }
      else g)
    g

/-- Python `max(samples.keys(), key=...)`: first element attaining the
maximal sample (later ties do not replace the current maximum). -/
def argmaxFirst (l : List String) (f : String → ℚ) : Option String :=
  l.foldl
    (fun acc v =>
      match acc with
      | Option.none => some v
      | some w => if f w < f v then some v else some w)
    Option.none

/-- `PolicyBandit.select`: raises `ValueError` (here `Option.none`) when no
variants are registered, otherwise returns the registered variant with the
highest Thompson sample. -/
def banditSelect (b : PolicyBandit) (samples : String → ℚ) : Option String :=
  if b.variants.isEmpty then Option.none else argmaxFirst b.variants samples

/-- `_random.choice` on a non-empty list, with the random draw supplied as
an index. -/
def pyChoice (n : ℕ) (l : List String) : String :=
  l.getD (n % l.length) ""

/-- `DeployGuardFull.select_variant_for_deployment`.  The returned
`Except Unit String` is `.error ()` when the Python code raises
(`AttributeError` on the missing `bandit.state.variants` attribute, or the
`ValueError` from `select` on an empty registry). -/
def selectVariantForDeployment (g : DeployGuardFull) (stats : String → PolicyStats)
    (u1 u2 : ℚ) (n1 n2 : ℕ) (samples : String → ℚ) :
    DeployGuardFull × Except Unit String :=
  let g := updateBlacklist g stats
  let available := g.active_variants.filter (fun v => v ∉ g.blacklisted_variants)
  if available.isEmpty then
    (g, .ok g.config.base_variant)
  else
    let newVariants := available.filter (fun v => isNewVariant g.config stats v)
    let uncertainVariants := available.filter
      (fun v => isUncertainVariant g.config stats v && v ∉ newVariants)
    if ¬newVariants.isEmpty ∧ u1 < g.config.traffic_split_new then
      (g, .ok (pyChoice n1 newVariants))
    else if ¬uncertainVariants.isEmpty ∧ u2 < g.config.traffic_split_uncertain then
      (g, .ok (pyChoice n2 uncertainVariants))
    else
      match g.banditStateVariants with
      | Option.none => (g, .error ())
      | some vs =>
          let g := { g with banditStateVariants := some (vs.filter (fun v => v ∈ available)) }
          match banditSelect g.bandit samples with
          | Option.none => (g, .error ())
          | some v => (g, .ok (if v = "" then g.config.base_variant else v))

/-! ## State persistence (C8)

Every `_save_state` is modelled as the sequence of file-system operations it
performs, so atomicity (write to a temporary file, then rename over the
target) is a property of the trace. -/

inductive FsOp where
  | write (path contents : String) : FsOp
  | rename (src dst : String) : FsOp
deriving DecidableEq, Repr

/-- `PolicyBandit._save_state`: `open(self.state_file, 'w')` followed by
`json.dump` — a single direct write to the target path. -/
def banditSaveStateOps (state_file contents : String) : List FsOp :=
  [.write state_file contents]

/-- `DeployGuardFull._save_state`: also a single direct write to the
target path. -/
def deployGuardSaveStateOps (state_file contents : String) : List FsOp :=
  [.write state_file contents]

/-- Module-level `save_state` in `deploy_guard.py`: write `<path>.tmp`,
then rename it over `path` (`os.replace`/`os.rename`). -/
def saveStateOps (path contents : String) : List FsOp :=
  [.write (path ++ ".tmp") contents, .rename (path ++ ".tmp") path]

/-- A trace is an atomic temp-and-rename persistence of `target` when it
writes some other file and then renames it onto the target. -/
def isAtomicTempRename (ops : List FsOp) (target : String) : Prop :=
  ∃ tmp contents, tmp ≠ target ∧ ops = [.write tmp contents, .rename tmp target]

end TOM

namespace TOM

/-- Statistics as supplied for the C1 evaluation: every variant is mature
(25 pulls), healthy (mean reward 0) and confident. -/
def demoStats : String → PolicyStats :=
  fun _ => { pulls := 25, mean_reward := 0, confidence := 1 }

/-- A bandit that has registered `v1a`, `v2a` and the (later blacklisted)
`v2b`. -/
def demoBandit : PolicyBandit :=
  addVariant (addVariant (addVariant {} "v1a") "v2a") "v2b"

/-- A deployment configuration with integral thresholds (any configuration
is admissible for the universally quantified claim). -/
def demoConfig : DeployConfig :=
  { traffic_split_new := 0
    traffic_split_uncertain := 0
    blacklist_threshold_reward := -1
    uncertainty_threshold_confidence := 0 }

/-- A guard as produced by `__init__`: `v2b` blacklisted, `v1a`/`v2a`
active, and — crucially — no `variants` attribute ever assigned on
`bandit.state`. -/
def freshGuard : DeployGuardFull :=
  { config := demoConfig
    active_variants := ["v1a", "v2a"]
    blacklisted_variants := ["v2b"]
    bandit := demoBandit }

/-- The same guard after some earlier assignment left
`bandit.state.variants` populated with the active variants. -/
def attrGuard : DeployGuardFull :=
  { freshGuard with banditStateVariants := some ["v1a", "v2a"] }

/-- Thompson samples that favour the blacklisted `v2b`. -/
def demoSamples : String → ℚ := fun v => if v = "v2b" then 1 else 0

/-- C1: the claim "select_variant_for_deployment returns a non-blacklisted
member of the active set, the bandit being restricted to E = active \
blacklisted" fails on the code.  The restriction is written to
`bandit.state.variants`, an attribute `BanditState` does not declare and
`PolicyBandit.select` never reads: on a fresh guard the read of that
attribute raises `AttributeError` (the `.error ()` outcome), and when the
attribute does exist, `select` still draws from the bandit's full
`variants` registry and here returns the blacklisted `v2b`. -/
theorem deploy_guard_bandit_not_restricted :
    (selectVariantForDeployment freshGuard demoStats (1/2) (1/2) 0 0 demoSamples).2
        = .error () ∧
    (selectVariantForDeployment attrGuard demoStats (1/2) (1/2) 0 0 demoSamples).2
        = .ok "v2b" ∧
    "v2b" ∈ attrGuard.blacklisted_variants ∧
    "v2b" ∉ attrGuard.active_variants := by
  refine ⟨by rfl, by rfl, by decide, by decide⟩

/-- C8 counterexample: neither `PolicyBandit._save_state` nor
`DeployGuardFull._save_state` persists via a temporary file plus rename —
each is a single in-place write to the target path. -/
theorem save_state_not_temp_rename :
    ¬ isAtomicTempRename (banditSaveStateOps "data/rl/bandit_state.json" "\x7b\x7d")
        "data/rl/bandit_state.json" ∧
    ¬ isAtomicTempRename (deployGuardSaveStateOps "data/rl/deploy_state.json" "\x7b\x7d")
        "data/rl/deploy_state.json" := by
  constructor
  · rintro ⟨tmp, c, hne, heq⟩
    simp [banditSaveStateOps] at heq
  · rintro ⟨tmp, c, hne, heq⟩
    simp [deployGuardSaveStateOps] at heq

/-- C8 amended: only the module-level `save_state` helper of
`deploy_guard.py` performs the atomic temp-write-then-rename persistence;
the `_save_state` methods of `PolicyBandit` and `DeployGuardFull` write the
JSON directly to the target file, so those persists are not atomic. -/
theorem save_state_amended (path contents : String) :
    isAtomicTempRename (saveStateOps path contents) path ∧
    ¬ isAtomicTempRename (banditSaveStateOps path contents) path ∧
    ¬ isAtomicTempRename (deployGuardSaveStateOps path contents) path := by
  refine ⟨⟨path ++ ".tmp", contents, ?_, rfl⟩, ?_, ?_⟩
  · intro h
    have hlen := congrArg String.length h
    rw [String.length_append] at hlen
    have h4 : (".tmp" : String).length = 4 := rfl
    omega
  · rintro ⟨tmp, c, hne, heq⟩
    simp [banditSaveStateOps] at heq
  · rintro ⟨tmp, c, hne, heq⟩
    simp [deployGuardSaveStateOps] at heq

/-! ## Dispatcher lifecycle FSM (`apps/dispatcher/rt_fsm.py`)

`CallState`, `CallEvent`, the transition matrix built in
`RealtimeFSM.__init__`, and `handle_event` including the `_update_context`
and `_handle_call_end` hooks.  Wall-clock durations are supplied as the
explicit parameter `d` (the value `_update_context` writes into
`call_duration` on `call_ended`).  The reward emission —
`update_policy_reward(session.policy_variant, reward)` — is returned as an
optional `(variant, reward)` pair. -/

inductive CallState where
  | idle | ringing | connected | listening | thinking | speaking | barred | ended
deriving DecidableEq, Repr

inductive CallEvent where
  | incoming_call | call_answered | call_ended | audio_start | audio_stop
  | barge_in | timeout | error
deriving DecidableEq, Repr

/-- The `self.transitions` matrix of `RealtimeFSM.__init__`
(`rt_fsm.py`, lines 96-132); `Option.none` marks pairs absent from the
nested dict. -/
def transitions : CallState → CallEvent → Option CallState
  | .idle, .incoming_call => some .ringing
  | .ringing, .call_answered => some .connected
  | .ringing, .call_ended => some .ended
  | .ringing, .timeout => some .ended
  | .connected, .audio_start => some .listening
  | .connected, .call_ended => some .ended
  | .connected, .error => some .ended
  | .listening, .audio_stop => some .thinking
  | .listening, .barge_in => some .listening
  | .listening, .call_ended => some .ended
  | .listening, .error => some .ended
  | .thinking, .audio_start => some .speaking
  | .thinking, .call_ended => some .ended
  | .thinking, .error => some .ended
  | .speaking, .audio_stop => some .listening
  | .speaking, .barge_in => some .listening
  | .speaking, .call_ended => some .ended
  | .speaking, .error => some .ended
  | .barred, .call_ended => some .ended
  | .barred, .error => some .ended
  | _, _ => Option.none

structure CallContext where
  call_id : String := ""
  profile : String := "general"
  time_of_day : String := "business"
  call_duration : ℚ := 0
  barge_in_count : ℕ := 0
  repeat_count : ℕ := 0
  user_rating : Option ℚ := Option.none
  resolution : Bool := false
  handover : Bool := false
deriving DecidableEq, Repr

structure CallSession where
  call_id : String := ""
  state : CallState := .idle
  context : CallContext := {}
  policy_variant : String := "v1a"
  events : ℕ := 0
deriving DecidableEq, Repr

/-- The optional `data` dict passed to `handle_event`; a `none` field is a
key absent from the dict. -/
structure EventData where
  user_rating : Option ℚ := Option.none
  resolution : Option Bool := Option.none
  handover : Option Bool := Option.none
  repeat_count : Option ℕ := Option.none
deriving DecidableEq, Repr

/-- `RealtimeFSM._update_context`: count barge-ins, set the final call
duration on `call_ended` (to the wall-clock value `d`), then merge the
`data` fields. -/
def updateContext (c : CallContext) (e : CallEvent) (data : EventData) (d : ℚ) : CallContext :=
  let c :=
    if e = CallEvent.barge_in then { c with barge_in_count := c.barge_in_count + 1 }
    else if e = CallEvent.call_ended then { c with call_duration := d }
    else c
  let c := match data.user_rating with
    | some r => { c with user_rating := some r }
    | Option.none => c
  let c := match data.resolution with
    | some r => { c with resolution := r }
    | Option.none => c
  let c := match data.handover with
    | some h => { c with handover := h }
    | Option.none => c
  match data.repeat_count with
    | some n => { c with repeat_count := n }
    | Option.none => c

/-- The signals dict assembled by `RealtimeFSM._handle_call_end` from the
session context, as dynamic values for the Reward Calculator. -/
def signalsOfContext (c : CallContext) : Signals :=
  { resolution := .bool c.resolution
    user_rating := match c.user_rating with
      | some r => .num r
      | Option.none => .none
    barge_in_count := .num c.barge_in_count
    repeats := .num c.repeat_count
    handover := .bool c.handover
    duration_sec := .num c.call_duration }

/-- Accepted-transition branch of `handle_event`: switch to the new state,
append to the event log, run `_update_context`, and on `call_ended` run
`_handle_call_end`, which computes the reward from the assembled signals
and pushes it to the Policy Bandit for the session's variant. -/
def acceptStep (s : CallSession) (e : CallEvent) (data : EventData) (d : ℚ) (ns : CallState) :
    CallSession × Bool × Option (String × ℚ) :=
  if e = CallEvent.call_ended then
    ({ s with state := ns, events := s.events + 1, context := updateContext s.context e data d },
      true,
      some (s.policy_variant,
        calcReward defaultRewardConfig (signalsOfContext (updateContext s.context e data d))))
  else
    ({ s with state := ns, events := s.events + 1, context := updateContext s.context e data d },
      true, Option.none)

/-- `RealtimeFSM.handle_event` for one session: events outside the
transition matrix are rejected (warn, `False`, no change); accepted events
run `acceptStep`.  Result: (session after, accepted?, optional reward
emission). -/
def handleEvent (s : CallSession) (e : CallEvent) (data : EventData) (d : ℚ) :
    CallSession × Bool × Option (String × ℚ) :=
  match transitions s.state e with
  | Option.none => (s, false, Option.none)
  | some ns => acceptStep s e data d ns

/-- Drive `handleEvent` over an event trace, collecting all reward
emissions. -/
def runEvents (s : CallSession) : List (CallEvent × EventData × ℚ) → CallSession × List (String × ℚ)
  | [] => (s, [])
  | ev :: rest =>
      ((runEvents (handleEvent s ev.1 ev.2.1 ev.2.2).1 rest).1,
        (handleEvent s ev.1 ev.2.1 ev.2.2).2.2.toList ++
          (runEvents (handleEvent s ev.1 ev.2.1 ev.2.2).1 rest).2)

/-- The number of accepted `call_ended` events along a trace. -/
def countAcceptedEnded (s : CallSession) : List (CallEvent × EventData × ℚ) → ℕ
  | [] => 0
  | ev :: rest =>
      (if (handleEvent s ev.1 ev.2.1 ev.2.2).2.1 = true ∧ ev.1 = CallEvent.call_ended
        then 1 else 0) +
        countAcceptedEnded (handleEvent s ev.1 ev.2.1 ev.2.2).1 rest

lemma transitions_ended (e : CallEvent) : transitions CallState.ended e = Option.none := by
  cases e <;> rfl

lemma transitions_call_ended_target (s : CallState) (ns : CallState)
    (h : transitions s CallEvent.call_ended = some ns) : ns = CallState.ended := by
  cases s <;> simp [transitions] at h <;> exact h.symm

lemma handleEvent_of_none (s : CallSession) (e : CallEvent) (data : EventData) (d : ℚ)
    (htr : transitions s.state e = Option.none) :
    handleEvent s e data d = (s, false, Option.none) := by
  unfold handleEvent
  rw [htr]

lemma handleEvent_of_some (s : CallSession) (e : CallEvent) (data : EventData) (d : ℚ)
    (ns : CallState) (htr : transitions s.state e = some ns) :
    handleEvent s e data d = acceptStep s e data d ns := by
  unfold handleEvent
  rw [htr]

lemma acceptStep_accepted (s : CallSession) (e : CallEvent) (data : EventData) (d : ℚ)
    (ns : CallState) : (acceptStep s e data d ns).2.1 = true := by
  unfold acceptStep
  split <;> rfl

lemma acceptStep_state (s : CallSession) (e : CallEvent) (data : EventData) (d : ℚ)
    (ns : CallState) : (acceptStep s e data d ns).1.state = ns := by
  unfold acceptStep
  split <;> rfl

lemma acceptStep_policy (s : CallSession) (e : CallEvent) (data : EventData) (d : ℚ)
    (ns : CallState) : (acceptStep s e data d ns).1.policy_variant = s.policy_variant := by
  unfold acceptStep
  split <;> rfl

lemma handleEvent_of_ended (s : CallSession) (e : CallEvent) (data : EventData) (d : ℚ)
    (h : s.state = CallState.ended) : handleEvent s e data d = (s, false, Option.none) := by
  apply handleEvent_of_none
  rw [h, transitions_ended]

lemma handleEvent_policy_variant (s : CallSession) (e : CallEvent) (data : EventData) (d : ℚ) :
    (handleEvent s e data d).1.policy_variant = s.policy_variant := by
  cases htr : transitions s.state e with
  | none => rw [handleEvent_of_none s e data d htr]
  | some ns => rw [handleEvent_of_some s e data d ns htr, acceptStep_policy]

lemma handleEvent_accept_table (s : CallSession) (e : CallEvent) (data : EventData) (d : ℚ)
    (h : (handleEvent s e data d).2.1 = true) :
    transitions s.state e = some (handleEvent s e data d).1.state := by
  cases htr : transitions s.state e with
  | none => rw [handleEvent_of_none s e data d htr] at h; simp at h
  | some ns => rw [handleEvent_of_some s e data d ns htr, acceptStep_state]

lemma handleEvent_reject (s : CallSession) (e : CallEvent) (data : EventData) (d : ℚ)
    (h : (handleEvent s e data d).2.1 = false) :
    handleEvent s e data d = (s, false, Option.none) := by
  cases htr : transitions s.state e with
  | none => exact handleEvent_of_none s e data d htr
  | some ns =>
      rw [handleEvent_of_some s e data d ns htr, acceptStep_accepted] at h
      simp at h

lemma handleEvent_emission_none (s : CallSession) (e : CallEvent) (data : EventData) (d : ℚ)
    (h : (handleEvent s e data d).2.1 = false ∨ e ≠ CallEvent.call_ended) :
    (handleEvent s e data d).2.2 = Option.none := by
  cases htr : transitions s.state e with
  | none => rw [handleEvent_of_none s e data d htr]
  | some ns =>
      rcases h with h | h
      · rw [handleEvent_of_some s e data d ns htr, acceptStep_accepted] at h
        simp at h
      · rw [handleEvent_of_some s e data d ns htr]
        unfold acceptStep
        rw [if_neg h]

lemma handleEvent_emission_some (s : CallSession) (data : EventData) (d : ℚ)
    (h : (handleEvent s CallEvent.call_ended data d).2.1 = true) :
    (handleEvent s CallEvent.call_ended data d).2.2 =
      some (s.policy_variant,
        calcReward defaultRewardConfig
          (signalsOfContext (handleEvent s CallEvent.call_ended data d).1.context)) := by
  cases htr : transitions s.state CallEvent.call_ended with
  | none => rw [handleEvent_of_none s CallEvent.call_ended data d htr] at h; simp at h
  | some ns =>
      rw [handleEvent_of_some s CallEvent.call_ended data d ns htr]
      unfold acceptStep
      rw [if_pos rfl]

lemma handleEvent_emission_ended_state (s : CallSession) (e : CallEvent) (data : EventData)
    (d : ℚ) (h : (handleEvent s e data d).2.2 ≠ Option.none) :
    (handleEvent s e data d).1.state = CallState.ended := by
  by_cases hacc : (handleEvent s e data d).2.1 = true
  · by_cases he : e = CallEvent.call_ended
    · subst he
      have htab := handleEvent_accept_table s CallEvent.call_ended data d hacc
      exact transitions_call_ended_target _ _ htab
    · exact absurd (handleEvent_emission_none s e data d (Or.inr he)) h
  · rw [handleEvent_reject s e data d (Bool.not_eq_true _ ▸ hacc)] at h
    exact absurd rfl h

lemma runEvents_of_ended (evs : List (CallEvent × EventData × ℚ)) :
    ∀ s : CallSession, s.state = CallState.ended → runEvents s evs = (s, []) := by
  induction evs with
  | nil => intro s _; rfl
  | cons ev rest ih =>
      intro s hs
      unfold runEvents
      rw [handleEvent_of_ended s ev.1 ev.2.1 ev.2.2 hs]
      simp [ih s hs]

lemma countAcceptedEnded_of_ended (evs : List (CallEvent × EventData × ℚ)) :
    ∀ s : CallSession, s.state = CallState.ended → countAcceptedEnded s evs = 0 := by
  induction evs with
  | nil => intro s _; rfl
  | cons ev rest ih =>
      intro s hs
      unfold countAcceptedEnded
      rw [handleEvent_of_ended s ev.1 ev.2.1 ev.2.2 hs]
      simp [ih s hs]

lemma runEvents_length_eq_count (evs : List (CallEvent × EventData × ℚ)) :
    ∀ s : CallSession, (runEvents s evs).2.length = countAcceptedEnded s evs := by
  induction evs with
  | nil => intro s; rfl
  | cons ev rest ih =>
      intro s
      unfold runEvents countAcceptedEnded
      rw [List.length_append, ih]
      congr 1
      by_cases hacc : (handleEvent s ev.1 ev.2.1 ev.2.2).2.1 = true
      · by_cases he : ev.1 = CallEvent.call_ended
        · rw [if_pos ⟨hacc, he⟩]
          rw [he] at hacc ⊢
          rw [handleEvent_emission_some s ev.2.1 ev.2.2 hacc]
          rfl
        · rw [if_neg (fun hc => he hc.2),
            handleEvent_emission_none s ev.1 ev.2.1 ev.2.2 (Or.inr he)]
          rfl
      · rw [if_neg (fun hc => hacc hc.1),
          handleEvent_emission_none s ev.1 ev.2.1 ev.2.2
            (Or.inl (Bool.not_eq_true _ ▸ hacc))]
        rfl

lemma runEvents_length_le_one (evs : List (CallEvent × EventData × ℚ)) :
    ∀ s : CallSession, (runEvents s evs).2.length ≤ 1 := by
  induction evs with
  | nil => intro s; simp [runEvents]
  | cons ev rest ih =>
      intro s
      unfold runEvents
      rw [List.length_append]
      by_cases hem : (handleEvent s ev.1 ev.2.1 ev.2.2).2.2 = Option.none
      · rw [hem]
        simpa using ih (handleEvent s ev.1 ev.2.1 ev.2.2).1
      · have hend := handleEvent_emission_ended_state s ev.1 ev.2.1 ev.2.2 hem
        rw [runEvents_of_ended rest _ hend]
        cases hx : (handleEvent s ev.1 ev.2.1 ev.2.2).2.2 with
        | none => exact absurd hx hem
        | some p => simp [hx]

lemma runEvents_policy (evs : List (CallEvent × EventData × ℚ)) :
    ∀ s : CallSession, ∀ p ∈ (runEvents s evs).2, p.1 = s.policy_variant := by
  induction evs with
  | nil => intro s p hp; simp [runEvents] at hp
  | cons ev rest ih =>
      intro s p hp
      unfold runEvents at hp
      rw [List.mem_append] at hp
      rcases hp with hp | hp
      · cases hx : (handleEvent s ev.1 ev.2.1 ev.2.2).2.2 with
        | none => rw [hx] at hp; simp at hp
        | some q =>
            rw [hx] at hp
            simp at hp
            subst hp
            by_cases hacc : (handleEvent s ev.1 ev.2.1 ev.2.2).2.1 = true
            · by_cases he : ev.1 = CallEvent.call_ended
              · rw [he] at hacc hx
                rw [handleEvent_emission_some s ev.2.1 ev.2.2 hacc] at hx
                injection hx with hx
                rw [← hx]
              · rw [handleEvent_emission_none s ev.1 ev.2.1 ev.2.2 (Or.inr he)] at hx
                cases hx
            · rw [handleEvent_emission_none s ev.1 ev.2.1 ev.2.2
                  (Or.inl (Bool.not_eq_true _ ▸ hacc))] at hx
              cases hx
      · have := ih (handleEvent s ev.1 ev.2.1 ev.2.2).1 p hp
        rw [this, handleEvent_policy_variant]

lemma updateContext_barge_in_count (c : CallContext) (data : EventData) (d : ℚ) :
    (updateContext c CallEvent.barge_in data d).barge_in_count = c.barge_in_count + 1 := by
  unfold updateContext
  cases data.user_rating <;> cases data.resolution <;> cases data.handover <;>
    cases data.repeat_count <;> rfl

end TOM

namespace TOM

/-- C3: the per-call FSM of `rt_fsm.py` honours its declared transition
table — an accepted event moves exactly along `transitions` and a rejected
event leaves the session untouched; `ENDED` is absorbing (every event is
rejected there); and along any event trace the reward is computed and
pushed to the Policy Bandit exactly at the accepted `call_ended` events —
of which there can be at most one — always for the session's selected
variant. -/
theorem fsm_table_absorbing_single_reward :
    (∀ (s : CallSession) (e : CallEvent) (data : EventData) (d : ℚ),
        ((handleEvent s e data d).2.1 = true →
          transitions s.state e = some (handleEvent s e data d).1.state) ∧
        ((handleEvent s e data d).2.1 = false →
          handleEvent s e data d = (s, false, Option.none))) ∧
    (∀ (s : CallSession) (e : CallEvent) (data : EventData) (d : ℚ),
        s.state = CallState.ended → handleEvent s e data d = (s, false, Option.none)) ∧
    (∀ (s : CallSession) (data : EventData) (d : ℚ),
        (handleEvent s CallEvent.call_ended data d).2.1 = true →
        (handleEvent s CallEvent.call_ended data d).2.2 =
          some (s.policy_variant,
            calcReward defaultRewardConfig
              (signalsOfContext (handleEvent s CallEvent.call_ended data d).1.context))) ∧
    (∀ (s : CallSession) (evs : List (CallEvent × EventData × ℚ)),
        (runEvents s evs).2.length = countAcceptedEnded s evs ∧
        (runEvents s evs).2.length ≤ 1 ∧
        ∀ p ∈ (runEvents s evs).2, p.1 = s.policy_variant) := by
  refine ⟨?_, ?_, ?_, ?_⟩
  · intro s e data d
    exact ⟨handleEvent_accept_table s e data d, handleEvent_reject s e data d⟩
  · intro s e data d h
    exact handleEvent_of_ended s e data d h
  · intro s data d h
    exact handleEvent_emission_some s data d h
  · intro s evs
    exact ⟨runEvents_length_eq_count evs s, runEvents_length_le_one evs s,
      runEvents_policy evs s⟩

/-- A session that has reached the terminal state. -/
def endedSession : CallSession := { state := CallState.ended }

/-- C3 witness: on a concrete ended session every event is a rejected
no-op, and a concrete trace that ends the call twice still produces at
most one reward emission. -/
theorem fsm_table_absorbing_single_reward_witness :
    handleEvent endedSession CallEvent.call_ended {} 0 = (endedSession, false, Option.none) ∧
    transitions ({} : CallSession).state CallEvent.incoming_call =
      some (handleEvent ({} : CallSession) CallEvent.incoming_call {} 0).1.state ∧
    (runEvents ({} : CallSession)
        [(CallEvent.incoming_call, {}, 0), (CallEvent.call_ended, {}, 0),
          (CallEvent.call_ended, {}, 0)]).2.length ≤ 1 :=
  ⟨fsm_table_absorbing_single_reward.2.1 endedSession CallEvent.call_ended {} 0 rfl,
    (fsm_table_absorbing_single_reward.1 ({} : CallSession) CallEvent.incoming_call {} 0).1
      (by rfl),
    (fsm_table_absorbing_single_reward.2.2.2 ({} : CallSession)
      [(CallEvent.incoming_call, {}, 0), (CallEvent.call_ended, {}, 0),
        (CallEvent.call_ended, {}, 0)]).2.1⟩

/-- A session in the `CONNECTED` lifecycle state. -/
def connectedSession : CallSession := { state := CallState.connected }

/-- A session currently speaking. -/
def speakingSession : CallSession := { state := CallState.speaking }

/-- A session in `BARRED`. -/
def barredSession : CallSession := { state := CallState.barred }

/-- C6 counterexample: in the `rt_fsm.py` transition matrix `barge_in`
does not send every non-terminal state to `BARRED`: in `CONNECTED` (a
non-terminal state) it is rejected and the state is unchanged, and in
`SPEAKING` it transitions to `LISTENING`, not `BARRED`. -/
theorem barge_in_to_barred_counterexample :
    handleEvent connectedSession CallEvent.barge_in {} 0
        = (connectedSession, false, Option.none) ∧
    (handleEvent speakingSession CallEvent.barge_in {} 0).1.state = CallState.listening ∧
    transitions CallState.speaking CallEvent.barge_in = some CallState.listening ∧
    transitions CallState.connected CallEvent.barge_in = Option.none := by
  exact ⟨rfl, rfl, rfl, rfl⟩

/-- C6 amended: in the dispatcher lifecycle FSM a `barge_in` is accepted
only in `LISTENING` and `SPEAKING`, in both cases ending in `LISTENING`
(with the barge-in counter incremented); in every other state — including
`BARRED` — it is rejected with no state change and no side effect, so a
second `barge_in` while `BARRED` is trivially idempotent. -/
theorem barge_in_amended (s : CallSession) (data : EventData) (d : ℚ) :
    ((s.state = CallState.listening ∨ s.state = CallState.speaking) →
      (handleEvent s CallEvent.barge_in data d).1.state = CallState.listening ∧
      (handleEvent s CallEvent.barge_in data d).2.1 = true ∧
      (handleEvent s CallEvent.barge_in data d).1.context.barge_in_count
        = s.context.barge_in_count + 1) ∧
    (¬(s.state = CallState.listening ∨ s.state = CallState.speaking) →
      handleEvent s CallEvent.barge_in data d = (s, false, Option.none)) := by
  constructor
  · intro h
    have htr : transitions s.state CallEvent.barge_in = some CallState.listening := by
      rcases h with h | h <;> rw [h] <;> rfl
    rw [handleEvent_of_some s CallEvent.barge_in data d CallState.listening htr]
    refine ⟨acceptStep_state _ _ _ _ _, acceptStep_accepted _ _ _ _ _, ?_⟩
    unfold acceptStep
    rw [if_neg (by decide : ¬ CallEvent.barge_in = CallEvent.call_ended)]
    exact updateContext_barge_in_count s.context data d
  · intro h
    apply handleEvent_of_none
    push_neg at h
    cases hs : s.state <;> first
      | rfl
      | exact absurd hs (by simp_all)

/-- C6 amended witness: a concrete speaking session moves to `LISTENING`
on barge-in, and a second `barge_in` on a concrete `BARRED` session is a
rejected no-op. -/
theorem barge_in_amended_witness :
    (handleEvent speakingSession CallEvent.barge_in {} 0).1.state = CallState.listening ∧
    handleEvent barredSession CallEvent.barge_in {} 0 = (barredSession, false, Option.none) :=
  ⟨((barge_in_amended speakingSession {} 0).1 (Or.inr rfl)).1,
    (barge_in_amended barredSession {} 0).2 (by decide)⟩

/-! ## WebSocket gateway (`apps/telephony_bridge/ws_realtime.py`)

`RealtimeWSGateway._validate_jwt` and the per-message gates of
`handle_client`.  `jwt.decode` (an external library call) is abstracted to
the flag `decodeOk`: `false` means it raised `InvalidTokenError` (bad
signature or malformed token).  The decoded payload's claims are optional
fields; the Redis nonce store is a list of `(key, expiry)` pairs and
`SET ... NX EX 120` is `redisSetNxEx`. -/

def JWT_ISSUER : String := "tom_control_plane"

def JWT_AUDIENCE : String := "tom_ws_gateway"

def JWT_MAX_TTL_SECONDS : ℚ := 60

/-- The `aud` claim: absent, a single string, or a list of audiences. -/
inductive AudClaim where
  | absent : AudClaim
  | single (a : String) : AudClaim
  | multi (l : List String) : AudClaim
deriving DecidableEq, Repr

structure JwtPayload where
  iss : Option String := Option.none
  aud : AudClaim := .absent
  call_id : Option String := Option.none
  iat : Option ℚ := Option.none
  exp : Option ℚ := Option.none
  nonce : Option String := Option.none
deriving DecidableEq, Repr

/-- Python truthiness of an optional numeric claim (`if iat:`): absent and
zero are both falsy. -/
def numTruthy : Option ℚ → Bool
  | Option.none => false
  | some q => q ≠ 0

/-- A key currently holds a live (unexpired) entry in the nonce store. -/
def nonceLive (store : List (String × ℚ)) (key : String) (now : ℚ) : Bool :=
  store.any (fun e => e.1 = key && now < e.2)

/-- Redis `SET key "1" NX EX ttl`: fails if a live entry exists, otherwise
records the key with expiry `now + ttl`. -/
def redisSetNxEx (store : List (String × ℚ)) (key : String) (now ttl : ℚ) :
    Bool × List (String × ℚ) :=
  if nonceLive store key now then (false, store)
  else (true, (key, now + ttl) :: store)

/-- The audience check of `_validate_jwt`: a collection must contain
`JWT_AUDIENCE`, anything else must equal it (an absent claim is `None` and
never equals it). -/
def audOk : AudClaim → Bool
  | .absent => false
  | .single a => a = JWT_AUDIENCE
  | .multi l => JWT_AUDIENCE ∈ l

/-- `RealtimeWSGateway._validate_jwt`: the if-chain of checks followed by
the atomic nonce registration, returning the verdict and the updated
nonce store. -/
def validateJwt (decodeOk : Bool) (payload : JwtPayload) (call_id : String)
    (now : ℚ) (store : List (String × ℚ)) : Bool × List (String × ℚ) :=
  if ¬decodeOk then (false, store)
  else if payload.iss ≠ some JWT_ISSUER then (false, store)
  else if ¬audOk payload.aud then (false, store)
  else if payload.call_id ≠ some call_id then (false, store)
  else if payload.exp.getD 0 < now then (false, store)
  else if numTruthy payload.iat && numTruthy payload.exp &&
      decide (JWT_MAX_TTL_SECONDS < payload.exp.getD 0 - payload.iat.getD 0) then
    (false, store)
  else if numTruthy payload.iat &&
      decide (JWT_MAX_TTL_SECONDS < now - payload.iat.getD 0) then
    (false, store)
  else if payload.nonce.getD "" = "" then (false, store)
  else redisSetNxEx store ("jwt_nonce:" ++ payload.nonce.getD "") now 120

/-- Outcome of the authentication step of `handle_client`. -/
inductive AuthResult where
  | proceed : AuthResult
  | closed (code : ℕ) : AuthResult
deriving DecidableEq, Repr

/-- The authentication step of `handle_client` (lines 281-294): unless the
dev bypass is set, a missing token or a failed validation sends
`auth_error` and closes the socket with code 1008. -/
def handleClientAuth (devAllowNoJwt jwtPresent valid : Bool) : AuthResult :=
  if devAllowNoJwt then .proceed
  else if !jwtPresent || !valid then .closed 1008
  else .proceed

/-- The validation predicate as the amended specification words it; used to
show the code's if-chain is equivalent to the conjunction of the spec's
conditions. -/
def validateJwtSpec (decodeOk : Bool) (payload : JwtPayload) (call_id : String)
    (now : ℚ) (store : List (String × ℚ)) : Prop :=
  decodeOk = true ∧ payload.iss = some JWT_ISSUER ∧ audOk payload.aud = true ∧
  payload.call_id = some call_id ∧ now ≤ payload.exp.getD 0 ∧
  (numTruthy payload.iat = true → numTruthy payload.exp = true →
    payload.exp.getD 0 - payload.iat.getD 0 ≤ JWT_MAX_TTL_SECONDS) ∧
  (numTruthy payload.iat = true → now - payload.iat.getD 0 ≤ JWT_MAX_TTL_SECONDS) ∧
  (∃ n, payload.nonce = some n ∧ n ≠ "" ∧
    nonceLive store ("jwt_nonce:" ++ n) now = false)

end TOM

namespace TOM

/-- A payload carrying correct issuer, audience, call id, a future expiry
and a fresh nonce — but no `iat` claim at all. -/
def noIatPayload : JwtPayload :=
  { iss := some "tom_control_plane"
    aud := .single "tom_ws_gateway"
    call_id := some "c1"
    exp := some 1030
    nonce := some "N1" }

/-- C2 counterexample: the claim "all of iss, aud, call_id, iat, exp,
nonce are required, so a token missing any of them is rejected" fails —
`_validate_jwt` accepts a token with no `iat` claim, because both
`iat`-based checks are guarded by `if iat ...:` and are skipped when the
claim is absent (or zero). -/
theorem jwt_missing_iat_accepted :
    (validateJwt true noIatPayload "c1" 1000 []).1 = true ∧
    noIatPayload.iat = Option.none := ⟨rfl, rfl⟩

/-- The if-chain of `_validate_jwt` accepts exactly the conjunction of the
individual conditions. -/
lemma validateJwt_true_iff (decodeOk : Bool) (payload : JwtPayload) (call_id : String)
    (now : ℚ) (store : List (String × ℚ)) :
    (validateJwt decodeOk payload call_id now store).1 = true ↔
      validateJwtSpec decodeOk payload call_id now store := by
  unfold validateJwt validateJwtSpec
  by_cases h1 : decodeOk = true
  · rw [if_neg (not_not_intro h1)]
    by_cases h2 : payload.iss = some JWT_ISSUER
    · rw [if_neg (not_not_intro h2)]
      by_cases h3 : audOk payload.aud = true
      · rw [if_neg (not_not_intro h3)]
        by_cases h4 : payload.call_id = some call_id
        · rw [if_neg (not_not_intro h4)]
          by_cases h5 : payload.exp.getD 0 < now
          · rw [if_pos h5]
            refine iff_of_false (by simp) ?_
            rintro ⟨-, -, -, -, he, -⟩
            exact absurd h5 (not_lt.mpr he)
          · rw [if_neg h5]
            by_cases h6 : (numTruthy payload.iat && numTruthy payload.exp &&
                decide (JWT_MAX_TTL_SECONDS < payload.exp.getD 0 - payload.iat.getD 0)) = true
            · rw [if_pos h6]
              refine iff_of_false (by simp) ?_
              rintro ⟨-, -, -, -, -, httl, -⟩
              simp only [Bool.and_eq_true, decide_eq_true_eq] at h6
              exact absurd h6.2 (not_lt.mpr (httl h6.1.1 h6.1.2))
            · rw [if_neg h6]
              by_cases h7 : (numTruthy payload.iat &&
                  decide (JWT_MAX_TTL_SECONDS < now - payload.iat.getD 0)) = true
              · rw [if_pos h7]
                refine iff_of_false (by simp) ?_
                rintro ⟨-, -, -, -, -, -, hage, -⟩
                simp only [Bool.and_eq_true, decide_eq_true_eq] at h7
                exact absurd h7.2 (not_lt.mpr (hage h7.1))
              · rw [if_neg h7]
                by_cases hnn : payload.nonce.getD "" = ""
                · rw [if_pos hnn]
                  refine iff_of_false (by simp) ?_
                  rintro ⟨-, -, -, -, -, -, -, m, hm, hm2, -⟩
                  rw [hm] at hnn
                  simp only [Option.getD_some] at hnn
                  exact hm2 hnn
                · rw [if_neg hnn]
                  unfold redisSetNxEx
                  by_cases hlive :
                      nonceLive store ("jwt_nonce:" ++ payload.nonce.getD "") now = true
                  · rw [if_pos hlive]
                    refine iff_of_false (by simp) ?_
                    rintro ⟨-, -, -, -, -, -, -, m, hm, -, hm3⟩
                    rw [hm] at hlive
                    simp only [Option.getD_some] at hlive
                    rw [hlive] at hm3
                    cases hm3
                  · rw [if_neg hlive]
                    refine iff_of_true rfl ?_
                    refine ⟨h1, h2, h3, h4, not_lt.mp h5, ?_, ?_,
                      payload.nonce.getD "", ?_, hnn, ?_⟩
                    · intro hia hie
                      by_contra hc
                      push_neg at hc
                      exact h6 (by simp [hia, hie, hc])
                    · intro hia
                      by_contra hc
                      push_neg at hc
                      exact h7 (by simp [hia, hc])
                    · cases hcn : payload.nonce with
                      | none => exact absurd (by simp [hcn]) hnn
                      | some m => rfl
                    · cases hl :
                          nonceLive store ("jwt_nonce:" ++ payload.nonce.getD "") now
                      · rfl
                      · exact absurd hl hlive
        · rw [if_pos h4]
          refine iff_of_false (by simp) ?_
          rintro ⟨-, -, -, hc, -⟩
          exact h4 hc
      · rw [if_pos h3]
        refine iff_of_false (by simp) ?_
        rintro ⟨-, -, ha, -⟩
        exact h3 ha
    · rw [if_pos h2]
      refine iff_of_false (by simp) ?_
      rintro ⟨-, hi, -⟩
      exact h2 hi
  · rw [if_pos h1]
    refine iff_of_false (by simp) ?_
    rintro ⟨hd, -⟩
    exact h1 hd

/-- `validateJwt` either rejects leaving the store unchanged, or accepts a
non-empty fresh nonce and records it with expiry `now + 120`. -/
lemma validateJwt_cases (decodeOk : Bool) (payload : JwtPayload) (call_id : String)
    (now : ℚ) (store : List (String × ℚ)) :
    validateJwt decodeOk payload call_id now store = (false, store) ∨
    (∃ n, payload.nonce.getD "" = n ∧ n ≠ "" ∧
      nonceLive store ("jwt_nonce:" ++ n) now = false ∧
      validateJwt decodeOk payload call_id now store
        = (true, ("jwt_nonce:" ++ n, now + 120) :: store)) := by
  unfold validateJwt
  by_cases h1 : ¬decodeOk = true
  · rw [if_pos h1]; exact Or.inl rfl
  · rw [if_neg h1]
    by_cases h2 : payload.iss ≠ some JWT_ISSUER
    · rw [if_pos h2]; exact Or.inl rfl
    · rw [if_neg h2]
      by_cases h3 : ¬audOk payload.aud = true
      · rw [if_pos h3]; exact Or.inl rfl
      · rw [if_neg h3]
        by_cases h4 : payload.call_id ≠ some call_id
        · rw [if_pos h4]; exact Or.inl rfl
        · rw [if_neg h4]
          by_cases h5 : payload.exp.getD 0 < now
          · rw [if_pos h5]; exact Or.inl rfl
          · rw [if_neg h5]
            by_cases h6 : (numTruthy payload.iat && numTruthy payload.exp &&
                decide (JWT_MAX_TTL_SECONDS < payload.exp.getD 0 - payload.iat.getD 0)) = true
            · rw [if_pos h6]; exact Or.inl rfl
            · rw [if_neg h6]
              by_cases h7 : (numTruthy payload.iat &&
                  decide (JWT_MAX_TTL_SECONDS < now - payload.iat.getD 0)) = true
              · rw [if_pos h7]; exact Or.inl rfl
              · rw [if_neg h7]
                by_cases hnn : payload.nonce.getD "" = ""
                · rw [if_pos hnn]; exact Or.inl rfl
                · rw [if_neg hnn]
                  unfold redisSetNxEx
                  by_cases hlive :
                      nonceLive store ("jwt_nonce:" ++ payload.nonce.getD "") now = true
                  · rw [if_pos hlive]; exact Or.inl rfl
                  · rw [if_neg hlive]
                    refine Or.inr ⟨payload.nonce.getD "", rfl, hnn, ?_, rfl⟩
                    cases hl :
                        nonceLive store ("jwt_nonce:" ++ payload.nonce.getD "") now
                    · rfl
                    · exact absurd hl hlive

/-- C2 amended: `_validate_jwt` accepts exactly when the signature decodes,
issuer, audience and `call_id` match, `exp` is present and not in the past,
the two TTL checks `exp − iat ≤ 60` and `now − iat ≤ 60` hold *whenever the
`iat` (resp. `exp`) claim is present and nonzero* — a token without `iat`
skips them — and a non-empty nonce is present with no live entry in the
store.  A successful validation records the nonce atomically with TTL
120 s, any later token presenting a nonce that is still live is rejected,
and in `handle_client` a missing token or failed validation closes the
connection with code 1008. -/
theorem jwt_validation_amended :
    (∀ (decodeOk : Bool) (payload : JwtPayload) (call_id : String) (now : ℚ)
        (store : List (String × ℚ)),
      (validateJwt decodeOk payload call_id now store).1 = true ↔
        validateJwtSpec decodeOk payload call_id now store) ∧
    (∀ (decodeOk : Bool) (payload : JwtPayload) (call_id : String) (now : ℚ)
        (store : List (String × ℚ)) (n : String),
      payload.nonce = some n →
      (validateJwt decodeOk payload call_id now store).1 = true →
      (validateJwt decodeOk payload call_id now store).2
        = ("jwt_nonce:" ++ n, now + 120) :: store) ∧
    (∀ (decodeOk : Bool) (payload : JwtPayload) (call_id : String) (now : ℚ)
        (store : List (String × ℚ)) (n : String),
      payload.nonce = some n →
      nonceLive store ("jwt_nonce:" ++ n) now = true →
      (validateJwt decodeOk payload call_id now store).1 = false) ∧
    (∀ jwtPresent valid : Bool, (¬jwtPresent = true ∨ ¬valid = true) →
      handleClientAuth false jwtPresent valid = AuthResult.closed 1008) := by
  refine ⟨validateJwt_true_iff, ?_, ?_, ?_⟩
  · intro decodeOk payload call_id now store n hn hok
    rcases validateJwt_cases decodeOk payload call_id now store with h | ⟨m, hm, -, -, heq⟩
    · rw [h] at hok
      cases hok
    · rw [hn, Option.getD_some] at hm
      rw [heq, hm]
  · intro decodeOk payload call_id now store n hn hlive
    rcases validateJwt_cases decodeOk payload call_id now store with h | ⟨m, hm, -, hml, -⟩
    · rw [h]
    · rw [hn, Option.getD_some] at hm
      rw [← hm, hlive] at hml
      cases hml
  · intro jwtPresent valid h
    cases jwtPresent <;> cases valid <;> first
      | rfl
      | simp_all

/-- C2 amended witness: a token replaying the nonce `N1` while its store
entry is still live is rejected, and a failed validation closes the
connection with 1008. -/
theorem jwt_validation_amended_witness :
    (validateJwt true noIatPayload "c1" 1050 [("jwt_nonce:N1", 1120)]).1 = false ∧
    handleClientAuth false true false = AuthResult.closed 1008 :=
  ⟨jwt_validation_amended.2.2.1 true noIatPayload "c1" 1050 [("jwt_nonce:N1", 1120)] "N1"
      rfl (by decide),
    jwt_validation_amended.2.2.2 true false (Or.inr (by decide))⟩

/-! ## Gateway frame loop (C7)

The per-message gates of `handle_client` (lines 316-351): the message rate
gate, the 64 KiB size gate, the byte-rate gate, JSON parsing plus Pydantic
validation (abstracted to the optional pre-parsed event carried by
`InboundMessage`), and dispatch.  `base64.b64decode` happens only on the
dispatch path of an `audio_chunk` (recording sink and
`Session.handle_audio_chunk`), never before the gates. -/

def MAX_FRAME_SIZE : ℕ := 64 * 1024

def RATE_LIMIT_MSGS_PER_SEC : ℕ := 120

def RATE_LIMIT_WINDOW_SEC : ℚ := 1

def RATE_LIMIT_BYTES_PER_SEC : ℕ := 256 * 1024

/-- `RealtimeWSGateway._check_rate_limit`: pop expired entries from the
front of the per-connection deque, refuse at 120 entries, otherwise record
the new timestamp. -/
def checkRateLimit (entries : List ℚ) (now : ℚ) : Bool × List ℚ :=
  if RATE_LIMIT_MSGS_PER_SEC ≤
      (entries.dropWhile (fun t => decide (t < now - RATE_LIMIT_WINDOW_SEC))).length then
    (false, entries.dropWhile (fun t => decide (t < now - RATE_LIMIT_WINDOW_SEC)))
  else
    (true, entries.dropWhile (fun t => decide (t < now - RATE_LIMIT_WINDOW_SEC)) ++ [now])

/-- `RealtimeWSGateway._check_byte_limit`. -/
def checkByteLimit (entries : List (ℚ × ℕ)) (now : ℚ) (size : ℕ) : Bool × List (ℚ × ℕ) :=
  if RATE_LIMIT_BYTES_PER_SEC <
      ((entries.dropWhile (fun e => decide (e.1 < now - RATE_LIMIT_WINDOW_SEC))).map
          (fun e => e.2)).sum + size then
    (false, entries.dropWhile (fun e => decide (e.1 < now - RATE_LIMIT_WINDOW_SEC)))
  else
    (true,
      entries.dropWhile (fun e => decide (e.1 < now - RATE_LIMIT_WINDOW_SEC)) ++ [(now, size)])

/-- A validated client event (`_validate_event` outcomes). -/
inductive ClientEvent where
  | audioChunk (audio : String) (timestamp : ℚ) (audio_length : ℕ) : ClientEvent
  | bargeIn (timestamp : ℚ) : ClientEvent
  | stopEvent (timestamp : ℚ) : ClientEvent
  | ping (timestamp : ℚ) : ClientEvent
deriving DecidableEq, Repr

def ClientEvent.isAudioChunk : ClientEvent → Bool
  | .audioChunk _ _ _ => true
  | _ => false

/-- One raw inbound WebSocket message: its byte size and, abstracting
`json.loads` plus `_validate_event`, the typed event it parses to
(`Option.none` for malformed JSON, a failed validation or an unknown
type). -/
structure InboundMessage where
  size : ℕ
  event : Option ClientEvent
deriving DecidableEq, Repr

/-- Observable outcome of the loop body for one message. -/
structure LoopOutcome where
  rateEntries : List ℚ
  byteEntries : List (ℚ × ℕ)
  rateLimitCounters : List String
  forwarded : Option ClientEvent
  base64Decoded : Bool
  connectionOpen : Bool
deriving Repr

/-- The body of the `async for message in websocket` loop of
`handle_client`, gate by gate — every early exit is a `continue`, so the
connection stays open in all cases. -/
def processMessage (rateEntries : List ℚ) (byteEntries : List (ℚ × ℕ)) (now : ℚ)
    (msg : InboundMessage) : LoopOutcome :=
  if (checkRateLimit rateEntries now).1 = false then
    { rateEntries := (checkRateLimit rateEntries now).2
      byteEntries := byteEntries
      rateLimitCounters := ["messages_per_sec"]
      forwarded := Option.none
      base64Decoded := false
      connectionOpen := true }
  else if MAX_FRAME_SIZE < msg.size then
    { rateEntries := (checkRateLimit rateEntries now).2
      byteEntries := byteEntries
      rateLimitCounters := ["frame_size"]
      forwarded := Option.none
      base64Decoded := false
      connectionOpen := true }
  else if (checkByteLimit byteEntries now msg.size).1 = false then
    { rateEntries := (checkRateLimit rateEntries now).2
      byteEntries := (checkByteLimit byteEntries now msg.size).2
      rateLimitCounters := ["bytes_per_sec"]
      forwarded := Option.none
      base64Decoded := false
      connectionOpen := true }
  else
    match msg.event with
    | Option.none =>
        { rateEntries := (checkRateLimit rateEntries now).2
          byteEntries := (checkByteLimit byteEntries now msg.size).2
          rateLimitCounters := []
          forwarded := Option.none
          base64Decoded := false
          connectionOpen := true }
    | some ev =>
        { rateEntries := (checkRateLimit rateEntries now).2
          byteEntries := (checkByteLimit byteEntries now msg.size).2
          rateLimitCounters := []
          forwarded := some ev
          base64Decoded := ev.isAudioChunk
          connectionOpen := true }

/-- A message-rate bucket that is already full: 120 timestamps inside the
current one-second window. -/
def fullRateEntries : List ℚ := (10 : ℚ) :: List.replicate 119 10

lemma fullRateEntries_dropWhile :
    fullRateEntries.dropWhile (fun t => decide (t < (10 : ℚ) - RATE_LIMIT_WINDOW_SEC))
      = fullRateEntries := by
  have hpred : (decide ((10 : ℚ) < (10 : ℚ) - RATE_LIMIT_WINDOW_SEC)) = false := by
    simp only [decide_eq_false_iff_not, RATE_LIMIT_WINDOW_SEC]
    norm_num
  unfold fullRateEntries
  rw [List.dropWhile_cons]
  simp [hpred]

lemma fullRateEntries_checkRateLimit :
    checkRateLimit fullRateEntries 10 = (false, fullRateEntries) := by
  unfold checkRateLimit
  rw [fullRateEntries_dropWhile, if_pos]
  simp [fullRateEntries, RATE_LIMIT_MSGS_PER_SEC]

/-- C7 counterexample: an oversized message that arrives while the
per-connection message-rate limit is already exhausted is dropped on the
rate gate — the `messages_per_sec` counter is incremented, not the
`frame_size` counter the claim promises for every oversized message.  (It
is still never forwarded.) -/
theorem oversized_frame_counter_counterexample :
    (processMessage fullRateEntries [] 10
        { size := 70000, event := Option.none }).rateLimitCounters
      = ["messages_per_sec"] ∧
    "frame_size" ∉ (processMessage fullRateEntries [] 10
        { size := 70000, event := Option.none }).rateLimitCounters ∧
    (processMessage fullRateEntries [] 10
        { size := 70000, event := Option.none }).forwarded = Option.none ∧
    MAX_FRAME_SIZE < 70000 := by
  refine ⟨?_, ?_, ?_, by decide⟩ <;>
    simp [processMessage, fullRateEntries_checkRateLimit]

/-- C7 amended: every message above `MAX_FRAME_SIZE` is dropped before
dispatch — never base64-decoded, never forwarded to a backend session —
and the connection stays open; the `frame_size` rate-limit counter is
incremented provided the message-rate gate (which runs first) passed,
otherwise the `messages_per_sec` counter is incremented instead. -/
theorem oversized_frame_amended (rateEntries : List ℚ) (byteEntries : List (ℚ × ℕ))
    (now : ℚ) (msg : InboundMessage) (hsize : MAX_FRAME_SIZE < msg.size) :
    (processMessage rateEntries byteEntries now msg).forwarded = Option.none ∧
    (processMessage rateEntries byteEntries now msg).base64Decoded = false ∧
    (processMessage rateEntries byteEntries now msg).connectionOpen = true ∧
    ((checkRateLimit rateEntries now).1 = true →
      (processMessage rateEntries byteEntries now msg).rateLimitCounters = ["frame_size"]) := by
  unfold processMessage
  by_cases hr : (checkRateLimit rateEntries now).1 = false
  · rw [if_pos hr]
    refine ⟨rfl, rfl, rfl, ?_⟩
    intro ht
    rw [ht] at hr
    cases hr
  · rw [if_neg hr, if_pos hsize]
    exact ⟨rfl, rfl, rfl, fun _ => rfl⟩

/-- C7 amended witness: a concrete 70000-byte message on a fresh
connection is dropped with a `frame_size` hit and nothing forwarded. -/
theorem oversized_frame_amended_witness :
    MAX_FRAME_SIZE < 70000 ∧
    (processMessage [] [] 10 { size := 70000, event := Option.none }).forwarded
        = Option.none ∧
    (processMessage [] [] 10 { size := 70000, event := Option.none }).rateLimitCounters
        = ["frame_size"] :=
  ⟨by decide,
    (oversized_frame_amended [] [] 10 { size := 70000, event := Option.none } (by decide)).1,
    (oversized_frame_amended [] [] 10 { size := 70000, event := Option.none }
      (by decide)).2.2.2 (by rfl)⟩

/-! ## Phone number normalization (`apps/security/phone_hash.py`)

`normalize_e164` over strings as character lists: `str.strip()` is
`pyStrip` (Python's default whitespace set), the regex
`re.sub(r'[^0-9+]', '', ·)` is a filter, `startswith` is a `take`
comparison, and `lstrip('0')` is a `dropWhile`.  The `ValueError` on an
empty argument is `Option.none`.  The module default country code
(`PHONE_DEFAULT_COUNTRY_CODE`, default `'+49'`) is a parameter. -/

/-- Python `str.strip()` whitespace: space, \t, \n, \r, \x0b, \x0c. -/
def pyIsSpace (c : Char) : Bool :=
  c = ' ' || c = '\t' || c = '\n' || c = '\r' || c = '\x0b' || c = '\x0c'

def pyStrip (l : List Char) : List Char :=
  ((l.dropWhile pyIsSpace).reverse.dropWhile pyIsSpace).reverse

/-- The character class kept by `re.sub(r'[^0-9+]', '', number)`. -/
def isDigitOrPlus (c : Char) : Bool := c.isDigit || c = '+'

def DEFAULT_COUNTRY_CODE : List Char := ['+', '4', '9']

/-- The prefix-rewriting chain of `normalize_e164`: `00…` → `+…`, keep an
existing `+`, a bare leading `0` is replaced by the default country code
(stripping all leading zeros), no prefix gets the default country code,
and with no country code configured a `+` is prepended. -/
def applyPrefixRules (defaultCC cleaned : List Char) : List Char :=
  if cleaned.take 2 = ['0', '0'] then '+' :: cleaned.drop 2
  else if cleaned.take 1 = ['+'] then cleaned
  else if cleaned.take 1 = ['0'] ∧ defaultCC ≠ [] then
    defaultCC ++ cleaned.dropWhile (fun c => c = '0')
  else if defaultCC ≠ [] then defaultCC ++ cleaned
  else '+' :: cleaned

/-- The final `if not cleaned.startswith('+'): cleaned = '+' + cleaned`. -/
def ensurePlus (l : List Char) : List Char :=
  if l.take 1 = ['+'] then l else '+' :: l

/-- `normalize_e164`: reject empty input, strip, drop everything but
digits and `+`, apply the prefix rules, and guarantee a leading `+`. -/
def normalizeE164 (defaultCC number : List Char) : Option (List Char) :=
  if number = [] then Option.none
  else some (ensurePlus (applyPrefixRules defaultCC ((pyStrip number).filter isDigitOrPlus)))

lemma allowed_not_space (c : Char) (h : isDigitOrPlus c = true) : pyIsSpace c = false := by
  by_contra hs
  rw [Bool.not_eq_false] at hs
  unfold pyIsSpace at hs
  simp only [Bool.or_eq_true, decide_eq_true_eq] at hs
  rcases hs with ((((h1 | h1) | h1) | h1) | h1) | h1 <;> subst h1 <;>
    exact absurd h (by decide)

lemma dropWhile_eq_self_of_all_false (p : Char → Bool) (l : List Char)
    (h : ∀ c ∈ l, p c = false) : l.dropWhile p = l := by
  cases l with
  | nil => rfl
  | cons a t =>
      rw [List.dropWhile_cons]
      rw [h a (List.mem_cons_self a t)]
      simp

lemma mem_of_mem_dropWhile (p : Char → Bool) (l : List Char) (c : Char)
    (h : c ∈ l.dropWhile p) : c ∈ l := by
  induction l with
  | nil => simp [List.dropWhile] at h
  | cons a t ih =>
      rw [List.dropWhile_cons] at h
      by_cases hp : p a = true
      · rw [if_pos hp] at h
        exact List.mem_cons_of_mem a (ih h)
      · rw [if_neg hp] at h
        exact h

lemma pyStrip_eq_self (l : List Char) (h : ∀ c ∈ l, pyIsSpace c = false) :
    pyStrip l = l := by
  unfold pyStrip
  rw [dropWhile_eq_self_of_all_false pyIsSpace l h]
  rw [dropWhile_eq_self_of_all_false pyIsSpace l.reverse
    (fun c hc => h c (List.mem_reverse.mp hc))]
  exact List.reverse_reverse l

lemma applyPrefixRules_allowed (dcc cleaned : List Char)
    (hd : ∀ c ∈ dcc, isDigitOrPlus c = true)
    (hc : ∀ c ∈ cleaned, isDigitOrPlus c = true) :
    ∀ c ∈ applyPrefixRules dcc cleaned, isDigitOrPlus c = true := by
  unfold applyPrefixRules
  split_ifs <;> intro c hcm
  · rcases List.mem_cons.mp hcm with h | h
    · subst h; decide
    · exact hc c (List.drop_subset _ _ h)
  · exact hc c hcm
  · rcases List.mem_append.mp hcm with h | h
    · exact hd c h
    · exact hc c (mem_of_mem_dropWhile _ _ _ h)
  · rcases List.mem_append.mp hcm with h | h
    · exact hd c h
    · exact hc c h
  · rcases List.mem_cons.mp hcm with h | h
    · subst h; decide
    · exact hc c h

lemma ensurePlus_mem (r : List Char) (c : Char) (h : c ∈ ensurePlus r) :
    c = '+' ∨ c ∈ r := by
  unfold ensurePlus at h
  split at h
  · exact Or.inr h
  · exact List.mem_cons.mp h

lemma ensurePlus_take_one (r : List Char) : (ensurePlus r).take 1 = ['+'] := by
  unfold ensurePlus
  split
  · assumption
  · rfl

lemma take_one_plus_shape (y : List Char) (h : y.take 1 = ['+']) :
    ∃ t, y = '+' :: t := by
  cases y with
  | nil => cases h
  | cons a t =>
      have h2 : [a] = ['+'] := h
      injection h2 with h1
      exact ⟨t, by rw [h1]⟩

end TOM

namespace TOM

/-- C9: `normalize_e164` is idempotent for every country-code setting made
of digits and `+` (in particular the module default `'+49'`): whenever the
function is defined on a non-empty input `x` and yields `y`, applying it
again to `y` yields `y` unchanged. -/
theorem normalize_e164_idempotent (dcc : List Char)
    (hd : ∀ c ∈ dcc, isDigitOrPlus c = true) (x y : List Char)
    (hy : normalizeE164 dcc x = some y) :
    normalizeE164 dcc y = some y := by
  unfold normalizeE164 at hy
  by_cases hx : x = []
  · rw [if_pos hx] at hy
    cases hy
  · rw [if_neg hx] at hy
    injection hy with hy
    have hcl : ∀ c ∈ (pyStrip x).filter isDigitOrPlus, isDigitOrPlus c = true :=
      fun c hc => (List.mem_filter.mp hc).2
    have hall : ∀ c ∈ y, isDigitOrPlus c = true := by
      intro c hc
      rw [← hy] at hc
      rcases ensurePlus_mem _ c hc with h | h
      · subst h; decide
      · exact applyPrefixRules_allowed dcc _ hd hcl c h
    have hhead : y.take 1 = ['+'] := by
      rw [← hy]
      exact ensurePlus_take_one _
    obtain ⟨t, hts⟩ := take_one_plus_shape y hhead
    have hne : y ≠ [] := by
      rw [hts]
      simp
    unfold normalizeE164
    rw [if_neg hne]
    have hstrip : pyStrip y = y :=
      pyStrip_eq_self y (fun c hc => allowed_not_space c (hall c hc))
    have hfilter : y.filter isDigitOrPlus = y := List.filter_eq_self.mpr hall
    rw [hstrip, hfilter]
    have h00 : ¬ (y.take 2 = ['0', '0']) := by
      rw [hts]
      intro hcon
      have hred : ('+' :: t).take 2 = '+' :: t.take 1 := rfl
      rw [hred] at hcon
      injection hcon with hc1 _
      exact absurd hc1 (by decide)
    have hrules : applyPrefixRules dcc y = y := by
      unfold applyPrefixRules
      rw [if_neg h00, if_pos hhead]
    rw [hrules]
    unfold ensurePlus
    rw [if_pos hhead]

/-- C9 witness: normalizing the concrete local number `0171` with the
default country code gives `+49171`, and normalizing that output again is
the identity. -/
theorem normalize_e164_idempotent_witness :
    normalizeE164 DEFAULT_COUNTRY_CODE ['0', '1', '7', '1']
        = some ['+', '4', '9', '1', '7', '1'] ∧
    normalizeE164 DEFAULT_COUNTRY_CODE ['+', '4', '9', '1', '7', '1']
        = some ['+', '4', '9', '1', '7', '1'] :=
  ⟨by rfl,
    normalize_e164_idempotent DEFAULT_COUNTRY_CODE (by decide) ['0', '1', '7', '1']
      ['+', '4', '9', '1', '7', '1'] (by rfl)⟩

end TOM
